import Mathlib

/-!
Verification of the envelope-encryption module `Crypter` of Qt-SESAM
(src/ctSESAM/crypter.cpp).

Bytes are modelled as `Nat` (values below 256 where it matters).  Byte
arrays are `List Nat`.  The third-party primitives that crypter.cpp calls
(the vendored CryptoPP 5.6.2 AES-CBC transform, the repository's PBKDF2
wrapper, and Qt's qCompress/qUncompress) are not under src/; they are
modelled from the spec's contracts (spec.md sections 4.1 and 4.2) as an
abstract structure `CryptoLib` whose fields carry exactly the properties
the spec promises of them.  Everything in `Crypter` itself is translated
from crypter.cpp.

Failure modelling: crypter.cpp reports failures through Q_ASSERT_X
assertions (which abort) and through uncaught CryptoPP exceptions (bad
padding throws InvalidCiphertext).  The spec's error taxonomy (section 7)
names these ContractViolation (assertion-level caller contract breach,
the KGK-size assertion of encode), FormatError (the format-flag assertion
of decode) and IntegrityError (any internal consistency check failing
during decode: the inner-block length assertions and padding or
decompression failure).  We model each aborting/throwing path as an
`Except.error` of the corresponding kind.  The `errCode` out-parameter
channel is modelled separately as the `errCode` field of the outcome:
`none` means the pointer was null or never written, `some c` means `c`
was written through it.
-/

/-- `Crypter::SaltSize` (crypter.cpp line 32). -/
def SaltSize : Nat := 32

/-- `Crypter::AESKeySize = 256 / 8` (crypter.cpp line 33). -/
def AESKeySize : Nat := 256 / 8

/-- `Crypter::DomainIterations` (crypter.cpp line 34). -/
def DomainIterations : Nat := 32768

/-- `Crypter::KGKIterations` (crypter.cpp line 35). -/
def KGKIterations : Nat := 1024

/-- `Crypter::KGKSize` (crypter.cpp line 36). -/
def KGKSize : Nat := 64

/-- `Crypter::AESBlockSize = CryptoPP::AES::BLOCKSIZE` (crypter.cpp line 37);
AES has 16-byte blocks. -/
def AESBlockSize : Nat := 16

/-- `Crypter::EEKSize = SaltSize + AESBlockSize + KGKSize` (crypter.cpp line 38). -/
def EEKSize : Nat := SaltSize + AESBlockSize + KGKSize

/-- Modelled from the spec: the value of the `FormatFlags` enumerator
`AES256EncryptedMasterkeyFormat` (declared in crypter.h, which is not under
src/); spec section 6: the format flag byte "must be 0x01". -/
def AES256EncryptedMasterkeyFormat : Nat := 1

/-- The spec's error taxonomy (section 7) for the aborting/throwing paths
of crypter.cpp. -/
inductive CryptErrorKind where
  | contractViolation
  | formatError
  | integrityError
deriving DecidableEq, Repr

/-- Modelled from the spec: the error code `NoCryptError` written through
the `errCode` out parameter (enum declared in crypter.h, not under src/;
crypter.cpp lines 76 and 122 are its only uses). -/
inductive CryptCode where
  | noCryptError
deriving DecidableEq, Repr

/-- Outcome of an `encode`/`decode` call: the returned value (or the
aborting/throwing failure), together with the value written through the
`errCode` out parameter (`none` when the pointer was null or the call
aborted before writing it). -/
structure COutcome (α : Type) where
  result : Except CryptErrorKind α
  errCode : Option CryptCode
deriving Repr

/-- The hash algorithms crypter.cpp selects (`QCryptographicHash::Sha256`
and `Sha384`). -/
inductive QHash where
  | sha256
  | sha384
deriving DecidableEq, Repr

/-- Digest size in bytes of each hash algorithm. -/
def QHash.digestSize : QHash → Nat
  | .sha256 => 32
  | .sha384 => 48

/-- Modelled from the spec: the third-party primitives crypter.cpp calls
but whose code is not under src/ — the vendored CryptoPP 5.6.2 AES-CBC
transform (spec section 4.2: length-preserving on block-aligned input and
decryption inverts encryption under the same key/IV), the repository's
PBKDF2 wrapper pbkdf2.h (spec section 4.1: deterministic, output of the
hash's digest length), and Qt's qCompress/qUncompress (decompression
inverts compression; qUncompress signals corrupt input only by returning
an empty array). -/
structure CryptoLib where
  encryptRaw : List Nat → List Nat → List Nat → List Nat
  decryptRaw : List Nat → List Nat → List Nat → List Nat
  pbkdf2 : QHash → Nat → List Nat → List Nat → List Nat
  qCompressRaw : Nat → List Nat → List Nat
  qUncompressRaw : List Nat → List Nat
  encryptRaw_length : ∀ k iv p, AESBlockSize ∣ p.length →
    (encryptRaw k iv p).length = p.length
  decrypt_encrypt : ∀ k iv p, AESBlockSize ∣ p.length → (∀ b ∈ p, b < 256) →
    decryptRaw k iv (encryptRaw k iv p) = p
  pbkdf2_length : ∀ h n pw s, (pbkdf2 h n pw s).length = h.digestSize
  qCompress_bytes : ∀ lvl d, ∀ b ∈ qCompressRaw lvl d, b < 256
  qUncompress_qCompress : ∀ d, (∀ b ∈ d, b < 256) →
    qUncompressRaw (qCompressRaw 9 d) = d

/-- `Crypter::randomBytes` (crypter.cpp lines 195-201): fills a buffer of
`size` bytes from the process-wide random device.  The device is modelled
as a stream `rng : Nat → Nat`; `offset` is how many bytes earlier calls in
the same operation already consumed. -/
def randomBytes (rng : Nat → Nat) (offset size : Nat) : List Nat :=
  (List.range size).map (fun i => rng (offset + i) % 256)

/-- Modelled from the spec: PKCS-style block padding (spec section 4.2,
"Standard" padding) as applied by the CryptoPP StreamTransformationFilter:
append `n - len % n` bytes, each holding that count. -/
def pkcsPad (n : Nat) (p : List Nat) : List Nat :=
  p ++ List.replicate (n - p.length % n) (n - p.length % n)

/-- Modelled from the spec: PKCS-style padding removal with validation
(spec section 4.2: decryption "must reject malformed/incorrect padding"):
the last byte `k` must satisfy `1 ≤ k ≤ n`, and the last `k` bytes must
all equal `k`; otherwise the filter throws. -/
def pkcsUnpad (n : Nat) (p : List Nat) : Option (List Nat) :=
  let k := (p.getLast?).getD 0
  if 1 ≤ k ∧ k ≤ n ∧ k ≤ p.length ∧ p.drop (p.length - k) = List.replicate k k
  then some (p.take (p.length - k))
  else none

/-- `Crypter::makeKeyFromPassword` (crypter.cpp lines 204-211): PBKDF2
with `KGKIterations` iterations and SHA-256, truncated by
`derivedKey(AESKeySize)` to `AESKeySize` bytes. -/
def makeKeyFromPassword (L : CryptoLib) (masterPassword salt : List Nat) : List Nat :=
  (L.pbkdf2 .sha256 KGKIterations masterPassword salt).take AESKeySize

/-- `Crypter::makeKeyAndIVFromPassword` (crypter.cpp lines 214-223):
PBKDF2 with `DomainIterations` iterations and SHA-384; `derivedKey()`
yields the full digest-length output, split as
`key = hash.mid(0, AESKeySize)`, `IV = hash.mid(AESKeySize, AESBlockSize)`. -/
def makeKeyAndIVFromPassword (L : CryptoLib) (masterPassword salt : List Nat) :
    List Nat × List Nat :=
  let hash := L.pbkdf2 .sha384 DomainIterations masterPassword salt
  (hash.take AESKeySize, (hash.drop AESKeySize).take AESBlockSize)

/-- The fresh inner salt of `encode`: `salt2 = randomBytes(SaltSize)`
(crypter.cpp line 79), the first `SaltSize` bytes drawn from the device. -/
def encSalt2 (rng : Nat → Nat) : List Nat :=
  randomBytes rng 0 SaltSize

/-- The fresh inner IV of `encode`: `IV2 = randomBytes(AESBlockSize)`
(crypter.cpp line 81), the next `AESBlockSize` bytes drawn from the device. -/
def encIV2 (rng : Nat → Nat) : List Nat :=
  randomBytes rng SaltSize AESBlockSize

/-- The inner block `KGK2 = salt2 ‖ IV2 ‖ KGK` of `encode`
(crypter.cpp lines 78-83). -/
def encInnerBlock (rng : Nat → Nat) (KGK : List Nat) : List Nat :=
  encSalt2 rng ++ encIV2 rng ++ KGK

/-- The encrypted envelope key `EEK = encrypt(key, IV, KGK2, NO_PADDING)`
of `encode` (crypter.cpp line 86). -/
def encEEK (L : CryptoLib) (rng : Nat → Nat) (key IV KGK : List Nat) : List Nat :=
  L.encryptRaw key IV (encInnerBlock rng KGK)

/-- The blob key of `encode`: `makeKeyFromPassword(KGK, salt2)`
(crypter.cpp line 89). -/
def encBlobKey (L : CryptoLib) (rng : Nat → Nat) (KGK : List Nat) : List Nat :=
  makeKeyFromPassword L KGK (encSalt2 rng)

/-- The plaintext `encode` encrypts: `compress ? qCompress(data, 9) : data`
(crypter.cpp line 91). -/
def encPlain (L : CryptoLib) (data : List Nat) (compress : Bool) : List Nat :=
  if compress then L.qCompressRaw 9 data else data

/-- The payload ciphertext of `encode`:
`encrypt(blobKey, IV2, plain, PKCS_PADDING)` (crypter.cpp line 92). -/
def encCipher (L : CryptoLib) (rng : Nat → Nat) (KGK data : List Nat)
    (compress : Bool) : List Nat :=
  L.encryptRaw (encBlobKey L rng KGK) (encIV2 rng)
    (pkcsPad AESBlockSize (encPlain L data compress))

/-- `Crypter::encode` (crypter.cpp lines 65-100), translated line by line.
The `Q_ASSERT_X` on the KGK size (line 73) precedes the `errCode`
initialisation (lines 75-76), so on that path nothing is written through
`errCode`.  The internal assertions of lines 84, 87 and 90 are
assertion-level contract checks (spec section 7, ContractViolation), as is
the CryptoPP requirement that NO_PADDING input be block-aligned. -/
def encode (L : CryptoLib) (rng : Nat → Nat)
    (key IV salt KGK data : List Nat) (compress hasErrPtr : Bool) :
    COutcome (List Nat) :=
  if KGK.length ≠ KGKSize then ⟨.error .contractViolation, none⟩ else
  let ec : Option CryptCode := if hasErrPtr then some .noCryptError else none
  let KGK2 := encInnerBlock rng KGK
  if KGK2.length ≠ EEKSize then ⟨.error .contractViolation, ec⟩ else
  if ¬ AESBlockSize ∣ KGK2.length then ⟨.error .contractViolation, ec⟩ else
  let EEK := encEEK L rng key IV KGK
  if EEK.length ≠ EEKSize then ⟨.error .contractViolation, ec⟩ else
  let blobKey := encBlobKey L rng KGK
  if blobKey.length ≠ AESKeySize then ⟨.error .contractViolation, ec⟩ else
  ⟨.ok (AES256EncryptedMasterkeyFormat ::
    (salt ++ EEK ++ encCipher L rng KGK data compress)), ec⟩

/-- The outer salt `decode` extracts:
`QByteArray(baCipher.constData(), SaltSize)` after removing the format
byte (crypter.cpp lines 125-127). -/
def decodeSalt (envelope : List Nat) : List Nat :=
  (envelope.drop 1).take SaltSize

/-- The EEK `decode` extracts: `QByteArray(baCipher.constData(), EEKSize)`
after removing the format byte and the salt (crypter.cpp lines 128-131). -/
def decodeEEK (envelope : List Nat) : List Nat :=
  ((envelope.drop 1).drop SaltSize).take EEKSize

/-- The payload ciphertext `decode` keeps: the envelope after removing
the format byte, the salt and the EEK (crypter.cpp line 133). -/
def decodeCipherPayload (envelope : List Nat) : List Nat :=
  ((envelope.drop 1).drop SaltSize).drop EEKSize

/-- The outer key/IV pair `decode` derives:
`makeKeyAndIVFromPassword(masterPassword, salt, key, IV)`
(crypter.cpp line 137). -/
def decodeKV (L : CryptoLib) (masterPassword envelope : List Nat) :
    List Nat × List Nat :=
  makeKeyAndIVFromPassword L masterPassword (decodeSalt envelope)

/-- The decrypted inner block of `decode`:
`baKGK = decrypt(key, IV, EEK, NO_PADDING)` (crypter.cpp line 139). -/
def decodeBaKGK (L : CryptoLib) (masterPassword envelope : List Nat) : List Nat :=
  L.decryptRaw (decodeKV L masterPassword envelope).1
    (decodeKV L masterPassword envelope).2 (decodeEEK envelope)

/-- The inner salt `decode` extracts from the decrypted inner block
(crypter.cpp lines 142-143). -/
def decodeSalt2 (L : CryptoLib) (masterPassword envelope : List Nat) : List Nat :=
  (decodeBaKGK L masterPassword envelope).take SaltSize

/-- The inner IV `decode` extracts from the decrypted inner block
(crypter.cpp lines 144-145). -/
def decodeIV2 (L : CryptoLib) (masterPassword envelope : List Nat) : List Nat :=
  ((decodeBaKGK L masterPassword envelope).drop SaltSize).take AESBlockSize

/-- The KGK `decode` recovers from the decrypted inner block and writes to
its output parameter (crypter.cpp line 146). -/
def decodeKGKrec (L : CryptoLib) (masterPassword envelope : List Nat) : List Nat :=
  (((decodeBaKGK L masterPassword envelope).drop SaltSize).drop AESBlockSize).take KGKSize

/-- The blob key `decode` derives: `makeKeyFromPassword(KGK, salt2)`
(crypter.cpp line 148). -/
def decodeBlobKey (L : CryptoLib) (masterPassword envelope : List Nat) : List Nat :=
  makeKeyFromPassword L (decodeKGKrec L masterPassword envelope)
    (decodeSalt2 L masterPassword envelope)

/-- `Crypter::decode` (crypter.cpp lines 114-152), translated line by
line.  `baCipher.at(0)` is modelled as `headD 0`; the raw
`QByteArray(ptr, n)` constructions are modelled as `take`/`drop` of the
available bytes (for envelopes shorter than the 145-byte header the C++
reads out of bounds — see the decode access-offset analysis below).  The
format-flag assertion (line 124) fails with `FormatError`; the internal
consistency assertions (lines 132 and 140), non-block-aligned ciphertext
and invalid PKCS padding (CryptoPP throws InvalidCiphertext) fail with
`IntegrityError` (spec section 7). -/
def decode (L : CryptoLib) (masterPassword envelope : List Nat)
    (uncompress hasErrPtr : Bool) : COutcome (List Nat × List Nat) :=
  let ec : Option CryptCode := if hasErrPtr then some .noCryptError else none
  if envelope.headD 0 ≠ AES256EncryptedMasterkeyFormat then ⟨.error .formatError, ec⟩ else
  if (decodeEEK envelope).length ≠ EEKSize then ⟨.error .integrityError, ec⟩ else
  if ¬ AESBlockSize ∣ (decodeEEK envelope).length then ⟨.error .integrityError, ec⟩ else
  if (decodeBaKGK L masterPassword envelope).length ≠ EEKSize then
    ⟨.error .integrityError, ec⟩ else
  if ¬ AESBlockSize ∣ (decodeCipherPayload envelope).length then
    ⟨.error .integrityError, ec⟩ else
  match pkcsUnpad AESBlockSize
      (L.decryptRaw (decodeBlobKey L masterPassword envelope)
        (decodeIV2 L masterPassword envelope) (decodeCipherPayload envelope)) with
  | none => ⟨.error .integrityError, ec⟩
  | some plain =>
    ⟨.ok ((if uncompress then L.qUncompressRaw plain else plain),
      decodeKGKrec L masterPassword envelope), ec⟩

/-- The ciphertext length of a PKCS-padded plaintext of `n` bytes
(spec section 8, "Length invariants"). -/
def ciphertextLength (n : Nat) : Nat :=
  n + (AESBlockSize - n % AESBlockSize)

/-- The byte offsets into the envelope that `decode` reads unconditionally
before any length information is consulted: offset 0 (`baCipher.at(0)`,
crypter.cpp line 123), offsets 1..32 (the salt read of line 127) and
offsets 33..144 (the EEK read of line 131). -/
def decodeHeaderReads : List Nat :=
  [0] ++ (List.range SaltSize).map (fun i => 1 + i) ++
    (List.range EEKSize).map (fun i => 1 + SaltSize + i)

/-! ## Basic length and byte-range lemmas -/

theorem randomBytes_length (rng : Nat → Nat) (off n : Nat) :
    (randomBytes rng off n).length = n := by
  simp [randomBytes]

theorem randomBytes_lt (rng : Nat → Nat) (off n : Nat) :
    ∀ b ∈ randomBytes rng off n, b < 256 := by
  intro b hb
  simp only [randomBytes, List.mem_map] at hb
  obtain ⟨i, _, rfl⟩ := hb
  exact Nat.mod_lt _ (by decide)

theorem encSalt2_length (rng : Nat → Nat) : (encSalt2 rng).length = SaltSize :=
  randomBytes_length rng 0 SaltSize

theorem encIV2_length (rng : Nat → Nat) : (encIV2 rng).length = AESBlockSize :=
  randomBytes_length rng SaltSize AESBlockSize

theorem encInnerBlock_length (rng : Nat → Nat) (KGK : List Nat)
    (hk : KGK.length = KGKSize) : (encInnerBlock rng KGK).length = EEKSize := by
  simp [encInnerBlock, encSalt2, encIV2, randomBytes_length, hk, EEKSize,
    SaltSize, AESBlockSize, KGKSize]

theorem encInnerBlock_lt (rng : Nat → Nat) (KGK : List Nat)
    (hb : ∀ b ∈ KGK, b < 256) : ∀ b ∈ encInnerBlock rng KGK, b < 256 := by
  intro b hbm
  rcases List.mem_append.mp hbm with h | h
  · rcases List.mem_append.mp h with h' | h'
    · exact randomBytes_lt rng 0 SaltSize b h'
    · exact randomBytes_lt rng SaltSize AESBlockSize b h'
  · exact hb b h

/-! ## PKCS padding lemmas -/

theorem pkcsPad_length (p : List Nat) :
    (pkcsPad AESBlockSize p).length = ciphertextLength p.length := by
  simp [pkcsPad, ciphertextLength]

theorem pkcsPad_dvd (p : List Nat) :
    AESBlockSize ∣ (pkcsPad AESBlockSize p).length := by
  have h : (pkcsPad AESBlockSize p).length
      = p.length + (AESBlockSize - p.length % AESBlockSize) := by
    simp [pkcsPad]
  rw [h]
  show 16 ∣ _
  simp only [AESBlockSize]
  omega

theorem pkcsPad_lt (p : List Nat) (hb : ∀ b ∈ p, b < 256) :
    ∀ b ∈ pkcsPad AESBlockSize p, b < 256 := by
  intro b hbm
  rcases List.mem_append.mp hbm with h | h
  · exact hb b h
  · rcases List.mem_replicate.mp h with ⟨-, rfl⟩
    have : AESBlockSize - p.length % AESBlockSize ≤ AESBlockSize := Nat.sub_le _ _
    simp only [AESBlockSize] at this ⊢
    omega

theorem pkcsUnpad_append_replicate (p : List Nat) (k : Nat)
    (hk1 : 1 ≤ k) (hkn : k ≤ AESBlockSize) :
    pkcsUnpad AESBlockSize (p ++ List.replicate k k) = some p := by
  have hlast : (p ++ List.replicate k k).getLast? = some k := by
    rw [List.getLast?_append, List.getLast?_replicate]
    have hne : k ≠ 0 := by omega
    simp [hne]
  have hlen : (p ++ List.replicate k k).length = p.length + k := by simp
  unfold pkcsUnpad
  rw [hlast]
  simp only [Option.getD_some, hlen]
  have hsub : p.length + k - k = p.length := by omega
  rw [if_pos ⟨hk1, hkn, by omega, by rw [hsub]; exact List.drop_left' rfl⟩]
  rw [hsub, List.take_left' rfl]

theorem pkcsUnpad_pkcsPad (p : List Nat) :
    pkcsUnpad AESBlockSize (pkcsPad AESBlockSize p) = some p := by
  unfold pkcsPad
  apply pkcsUnpad_append_replicate
  · have : p.length % AESBlockSize < AESBlockSize :=
      Nat.mod_lt _ (by decide)
    omega
  · exact Nat.sub_le _ _

/-! ## Key-derivation length lemmas -/

theorem makeKeyFromPassword_length (L : CryptoLib) (pw s : List Nat) :
    (makeKeyFromPassword L pw s).length = AESKeySize := by
  simp [makeKeyFromPassword, List.length_take, L.pbkdf2_length, QHash.digestSize, AESKeySize]

theorem makeKeyAndIVFromPassword_key_length (L : CryptoLib) (pw s : List Nat) :
    (makeKeyAndIVFromPassword L pw s).1.length = AESKeySize := by
  simp [makeKeyAndIVFromPassword, List.length_take, L.pbkdf2_length, QHash.digestSize, AESKeySize]

theorem makeKeyAndIVFromPassword_iv_length (L : CryptoLib) (pw s : List Nat) :
    (makeKeyAndIVFromPassword L pw s).2.length = AESBlockSize := by
  simp [makeKeyAndIVFromPassword, List.length_take, List.length_drop,
    L.pbkdf2_length, QHash.digestSize, AESKeySize, AESBlockSize]

/-! ## encode normal form -/

theorem encBlobKey_length (L : CryptoLib) (rng : Nat → Nat) (KGK : List Nat) :
    (encBlobKey L rng KGK).length = AESKeySize :=
  makeKeyFromPassword_length L KGK (encSalt2 rng)

theorem encEEK_length (L : CryptoLib) (rng : Nat → Nat) (key IV KGK : List Nat)
    (hk : KGK.length = KGKSize) : (encEEK L rng key IV KGK).length = EEKSize := by
  rw [encEEK, L.encryptRaw_length]
  · exact encInnerBlock_length rng KGK hk
  · rw [encInnerBlock_length rng KGK hk]; decide

theorem encCipher_length (L : CryptoLib) (rng : Nat → Nat) (KGK data : List Nat)
    (cmp : Bool) :
    (encCipher L rng KGK data cmp).length
      = ciphertextLength (encPlain L data cmp).length := by
  rw [encCipher, L.encryptRaw_length _ _ _ (pkcsPad_dvd _), pkcsPad_length]

theorem encCipher_dvd (L : CryptoLib) (rng : Nat → Nat) (KGK data : List Nat)
    (cmp : Bool) : AESBlockSize ∣ (encCipher L rng KGK data cmp).length := by
  rw [encCipher, L.encryptRaw_length _ _ _ (pkcsPad_dvd _)]
  exact pkcsPad_dvd _

theorem encode_ok (L : CryptoLib) (rng : Nat → Nat)
    (key IV salt KGK data : List Nat) (cmp hp : Bool)
    (hk : KGK.length = KGKSize) :
    encode L rng key IV salt KGK data cmp hp =
      ⟨.ok (AES256EncryptedMasterkeyFormat ::
          (salt ++ encEEK L rng key IV KGK ++ encCipher L rng KGK data cmp)),
        if hp then some .noCryptError else none⟩ := by
  unfold encode
  rw [if_neg (by rw [hk]; exact fun h => h rfl)]
  rw [if_neg (by rw [encInnerBlock_length rng KGK hk]; exact fun h => h rfl)]
  rw [if_neg (by rw [encInnerBlock_length rng KGK hk]; decide)]
  rw [if_neg (by rw [encEEK_length L rng key IV KGK hk]; exact fun h => h rfl)]
  rw [if_neg (by rw [encBlobKey_length L rng KGK]; exact fun h => h rfl)]

/-! ## decode extraction lemmas for well-formed envelopes -/

theorem decodeSalt_cons (b : Nat) (salt rest : List Nat)
    (hs : salt.length = SaltSize) :
    decodeSalt (b :: (salt ++ rest)) = salt := by
  show ((b :: (salt ++ rest)).drop 1).take SaltSize = salt
  rw [List.drop_succ_cons, List.drop_zero]
  exact List.take_left' hs

theorem decodeEEK_cons (b : Nat) (salt EEK rest : List Nat)
    (hs : salt.length = SaltSize) (hE : EEK.length = EEKSize) :
    decodeEEK (b :: (salt ++ (EEK ++ rest))) = EEK := by
  show (((b :: (salt ++ (EEK ++ rest))).drop 1).drop SaltSize).take EEKSize = EEK
  rw [List.drop_succ_cons, List.drop_zero, List.drop_left' hs]
  exact List.take_left' hE

theorem decodeCipherPayload_cons (b : Nat) (salt EEK rest : List Nat)
    (hs : salt.length = SaltSize) (hE : EEK.length = EEKSize) :
    decodeCipherPayload (b :: (salt ++ (EEK ++ rest))) = rest := by
  show (((b :: (salt ++ (EEK ++ rest))).drop 1).drop SaltSize).drop EEKSize = rest
  rw [List.drop_succ_cons, List.drop_zero, List.drop_left' hs, List.drop_left' hE]

/-! ## Claim theorems -/

/-- C1: for every payload byte sequence (including the empty one), every
64-byte KGK and every master password, decoding with the same master
password (and the same compress/uncompress flag) an envelope produced by
`encode` from the outer key/IV derived from that password returns exactly
the original payload and writes exactly the original KGK into the output
parameter. -/
theorem claim_C1_roundtrip (L : CryptoLib) (rng : Nat → Nat)
    (M salt KGK data : List Nat) (cmp p1 p2 : Bool)
    (hs : salt.length = SaltSize) (hk : KGK.length = KGKSize)
    (hkb : ∀ b ∈ KGK, b < 256) (hdb : ∀ b ∈ data, b < 256) :
    ∀ env,
      (encode L rng (makeKeyAndIVFromPassword L M salt).1
        (makeKeyAndIVFromPassword L M salt).2 salt KGK data cmp p1).result
        = .ok env →
      (decode L M env cmp p2).result = .ok (data, KGK) := by
  intro env henv
  rw [encode_ok _ _ _ _ _ _ _ _ _ hk] at henv
  simp only [Except.ok.injEq] at henv
  subst henv
  rw [List.append_assoc]
  set key := (makeKeyAndIVFromPassword L M salt).1 with hkey
  set IV := (makeKeyAndIVFromPassword L M salt).2 with hIV
  set EEK := encEEK L rng key IV KGK with hEEKdef
  set cipher := encCipher L rng KGK data cmp with hcipdef
  set env' := AES256EncryptedMasterkeyFormat :: (salt ++ (EEK ++ cipher)) with henvdef
  have hE : EEK.length = EEKSize := encEEK_length L rng key IV KGK hk
  have hhead : env'.headD 0 = AES256EncryptedMasterkeyFormat := rfl
  have hsalte : decodeSalt env' = salt := decodeSalt_cons _ _ _ hs
  have hEEKe : decodeEEK env' = EEK := decodeEEK_cons _ _ _ _ hs hE
  have hcipe : decodeCipherPayload env' = cipher :=
    decodeCipherPayload_cons _ _ _ _ hs hE
  have hkv : decodeKV L M env' = makeKeyAndIVFromPassword L M salt := by
    rw [decodeKV, hsalte]
  have hbaKGK : decodeBaKGK L M env' = encInnerBlock rng KGK := by
    rw [decodeBaKGK, hkv, hEEKe, hEEKdef, encEEK, ← hkey, ← hIV]
    exact L.decrypt_encrypt _ _ _
      (by rw [encInnerBlock_length rng KGK hk]; decide)
      (encInnerBlock_lt rng KGK hkb)
  have hsalt2 : decodeSalt2 L M env' = encSalt2 rng := by
    rw [decodeSalt2, hbaKGK, encInnerBlock, List.append_assoc]
    exact List.take_left' (encSalt2_length rng)
  have hIV2 : decodeIV2 L M env' = encIV2 rng := by
    rw [decodeIV2, hbaKGK, encInnerBlock, List.append_assoc,
      List.drop_left' (encSalt2_length rng)]
    exact List.take_left' (encIV2_length rng)
  have hKGKrec : decodeKGKrec L M env' = KGK := by
    rw [decodeKGKrec, hbaKGK, encInnerBlock, List.append_assoc,
      List.drop_left' (encSalt2_length rng), List.drop_left' (encIV2_length rng),
      ← hk, List.take_length]
  have hblob : decodeBlobKey L M env' = encBlobKey L rng KGK := by
    rw [decodeBlobKey, hKGKrec, hsalt2, encBlobKey]
  have hplainbytes : ∀ b ∈ encPlain L data cmp, b < 256 := by
    cases cmp
    · simpa [encPlain] using hdb
    · simpa [encPlain] using L.qCompress_bytes 9 data
  have hdec : L.decryptRaw (decodeBlobKey L M env') (decodeIV2 L M env')
      (decodeCipherPayload env') = pkcsPad AESBlockSize (encPlain L data cmp) := by
    rw [hblob, hIV2, hcipe, hcipdef, encCipher]
    exact L.decrypt_encrypt _ _ _ (pkcsPad_dvd _) (pkcsPad_lt _ hplainbytes)
  simp only [decode]
  rw [if_neg (by rw [hhead]; exact fun h => h rfl)]
  rw [if_neg (by rw [hEEKe, hE]; exact fun h => h rfl)]
  rw [if_neg (by rw [hEEKe, hE]; decide)]
  rw [if_neg (by
    rw [hbaKGK, encInnerBlock_length rng KGK hk]; exact fun h => h rfl)]
  rw [if_neg (by
    rw [hcipe, hcipdef]; exact fun h => h (encCipher_dvd L rng KGK data cmp))]
  rw [hdec, pkcsUnpad_pkcsPad]
  rw [hKGKrec]
  cases cmp
  · simp [encPlain]
  · simp [encPlain, L.qUncompress_qCompress data hdb]

/-- C2: every envelope whose leading byte is not
`AES256EncryptedMasterkeyFormat` (0x01) is rejected by `decode` with
`FormatError` (the assertion of crypter.cpp line 124), regardless of the
remaining bytes, the password and the flags. -/
theorem claim_C2_format_rejection (L : CryptoLib) (pw env : List Nat) (u hp : Bool)
    (h : env.headD 0 ≠ AES256EncryptedMasterkeyFormat) :
    (decode L pw env u hp).result = .error .formatError := by
  simp only [decode]
  rw [if_pos h]

/-- C4: every `encode` call that passes the KGK-size contract (with a
32-byte outer salt, per encode's documented contract for the `salt`
parameter) produces exactly
`formatFlag ‖ salt ‖ EEK ‖ cipherPayload`, of total length
`145 + ciphertextLength(len(plain))` where `plain` is the optionally
compressed payload; and the inner block and its encryption (the EEK) are
both exactly `EEKSize = 112 = 32 + 16 + 64` bytes. -/
theorem claim_C4_length_invariants (L : CryptoLib) (rng : Nat → Nat)
    (key IV salt KGK data : List Nat) (cmp hp : Bool)
    (hs : salt.length = SaltSize) (hk : KGK.length = KGKSize) :
    (encode L rng key IV salt KGK data cmp hp).result
      = .ok (AES256EncryptedMasterkeyFormat ::
          (salt ++ encEEK L rng key IV KGK ++ encCipher L rng KGK data cmp))
    ∧ (AES256EncryptedMasterkeyFormat ::
          (salt ++ encEEK L rng key IV KGK ++ encCipher L rng KGK data cmp)).length
        = 145 + ciphertextLength (encPlain L data cmp).length
    ∧ (encInnerBlock rng KGK).length = EEKSize
    ∧ (encEEK L rng key IV KGK).length = EEKSize
    ∧ EEKSize = SaltSize + AESBlockSize + KGKSize
    ∧ EEKSize = 112 := by
  refine ⟨?_, ?_, encInnerBlock_length rng KGK hk,
    encEEK_length L rng key IV KGK hk, rfl, rfl⟩
  · rw [encode_ok _ _ _ _ _ _ _ _ _ hk]
  · simp only [List.length_cons, List.length_append, hs,
      encEEK_length L rng key IV KGK hk,
      encCipher_length L rng KGK data cmp, EEKSize, SaltSize, AESBlockSize, KGKSize]
    omega

/-- C5: the password-derivation uses exactly `DomainIterations = 32768`
iterations of PBKDF2 with SHA-384 and yields a 48-byte output split into a
32-byte outer AES key followed by a 16-byte outer IV
(crypter.cpp lines 214-223); the KGK-derivation uses exactly
`KGKIterations = 1024` iterations with SHA-256 and yields a 32-byte blob
key (crypter.cpp lines 204-211). -/
theorem claim_C5_kdf_parameters (L : CryptoLib) (pw salt : List Nat) :
    makeKeyAndIVFromPassword L pw salt
      = ((L.pbkdf2 .sha384 32768 pw salt).take 32,
         ((L.pbkdf2 .sha384 32768 pw salt).drop 32).take 16)
    ∧ (L.pbkdf2 .sha384 32768 pw salt).length = 48
    ∧ (makeKeyAndIVFromPassword L pw salt).1.length = 32
    ∧ (makeKeyAndIVFromPassword L pw salt).2.length = 16
    ∧ makeKeyFromPassword L pw salt = (L.pbkdf2 .sha256 1024 pw salt).take 32
    ∧ (makeKeyFromPassword L pw salt).length = 32 :=
  ⟨rfl, L.pbkdf2_length _ _ _ _,
    makeKeyAndIVFromPassword_key_length L pw salt,
    makeKeyAndIVFromPassword_iv_length L pw salt, rfl,
    makeKeyFromPassword_length L pw salt⟩

/-- C6: when the format flag is accepted but the NO_PADDING decryption of
the extracted EEK under the password-derived outer key/IV does not yield
exactly `EEKSize = 112` bytes, `decode` fails with `IntegrityError`
(the assertions of crypter.cpp lines 132 and 140) instead of continuing
with a mis-decoded inner block. -/
theorem claim_C6_inner_length_check (L : CryptoLib) (pw env : List Nat) (u hp : Bool)
    (hfmt : env.headD 0 = AES256EncryptedMasterkeyFormat)
    (h : (decodeBaKGK L pw env).length ≠ EEKSize) :
    (decode L pw env u hp).result = .error .integrityError := by
  simp only [decode]
  rw [if_neg (fun hc => hc hfmt)]
  by_cases hE : (decodeEEK env).length = EEKSize
  · rw [if_neg (fun hc => hc hE)]
    rw [if_neg (by rw [hE]; decide)]
    rw [if_pos h]
  · rw [if_pos hE]

/-- C8: an `encode` call with a KGK whose length is not `KGKSize = 64`
fails with `ContractViolation` (the assertion of crypter.cpp line 73)
before anything else happens: the outcome is a constant independent of
the cryptographic primitives and of the random source (so no random
generation, key derivation or encryption is performed), and `errCode`
(initialised only on line 75, after the assertion) is never written. -/
theorem claim_C8_kgk_contract (L L' : CryptoLib) (rng rng' : Nat → Nat)
    (key IV salt KGK data : List Nat) (cmp hp : Bool)
    (h : KGK.length ≠ KGKSize) :
    encode L rng key IV salt KGK data cmp hp = ⟨.error .contractViolation, none⟩
    ∧ encode L rng key IV salt KGK data cmp hp
        = encode L' rng' key IV salt KGK data cmp hp := by
  constructor
  · simp only [encode]
    rw [if_pos h]
  · simp only [encode]
    rw [if_pos h, if_pos h]

/-- C9: the typed error-code channel never reports a failure: `decode`
writes `NoCryptError` through a non-null `errCode` at entry on every path
(crypter.cpp lines 121-122), and whenever `encode` returns normally with a
non-null `errCode` the value written is the `NoCryptError` set at entry
(lines 75-76); no code path assigns any other error code. -/
theorem claim_C9_errcode_channel (L : CryptoLib) (rng : Nat → Nat)
    (pw env key IV salt KGK data : List Nat) (u cmp : Bool) :
    (decode L pw env u true).errCode = some CryptCode.noCryptError
    ∧ (∀ out, (encode L rng key IV salt KGK data cmp true).result = .ok out →
        (encode L rng key IV salt KGK data cmp true).errCode
          = some CryptCode.noCryptError) := by
  constructor
  · simp only [decode]
    repeat' split
    all_goals simp_all
  · intro out hout
    by_cases hkk : KGK.length = KGKSize
    · rw [encode_ok _ _ _ _ _ _ _ _ _ hkk]
      simp
    · simp only [encode] at hout ⊢
      rw [if_pos hkk] at hout
      simp at hout

/-- C10: the byte offsets `decode` reads unconditionally from the envelope
(the format byte at offset 0, the 32-byte salt at offsets 1..32, the
112-byte EEK at offsets 33..144 — crypter.cpp lines 123-131, with no
length check anywhere) are all within an envelope of length `n` exactly
when `145 ≤ n`; for any shorter input, including the empty one, some read
falls outside the input. -/
theorem claim_C10_header_reads_bounds (n : Nat) :
    (∀ i ∈ decodeHeaderReads, i < n) ↔ 145 ≤ n := by
  constructor
  · intro h
    have h144 : 144 ∈ decodeHeaderReads := by
      simp only [decodeHeaderReads, List.mem_append, List.mem_map, List.mem_range,
        List.mem_singleton, EEKSize, SaltSize, AESBlockSize, KGKSize]
      exact Or.inr ⟨111, by omega, by omega⟩
    have := h 144 h144
    omega
  · intro h i hi
    simp only [decodeHeaderReads, List.mem_append, List.mem_map, List.mem_range,
      List.mem_singleton, EEKSize, SaltSize, AESBlockSize, KGKSize] at hi
    rcases hi with (rfl | ⟨a, ha, rfl⟩) | ⟨a, ha, rfl⟩
    · omega
    · omega
    · omega

/-! ## A concrete instance of the primitive model, for witnesses

A small executable `CryptoLib` instance: a keyed byte-shift cipher
(length-preserving and invertible, as the contract requires), a
deterministic digest-length key-derivation function, and a marker-byte
compression scheme whose decompressor returns the empty list on corrupt
input, as Qt's qUncompress does. -/

theorem toy_byte_roundtrip (b s : Nat) (hb : b < 256) (hs : s < 256) :
    ((b + s) % 256 + 256 - s) % 256 = b := by omega

theorem toy_map_roundtrip (s : Nat) (hs : s < 256) (p : List Nat)
    (hb : ∀ b ∈ p, b < 256) :
    (p.map (fun b => (b + s) % 256)).map (fun c => (c + 256 - s) % 256) = p := by
  induction p with
  | nil => rfl
  | cons x xs ih =>
    simp only [List.map_cons, List.cons.injEq]
    exact ⟨toy_byte_roundtrip x s (hb x (by simp)) hs,
      ih (fun b hbm => hb b (by simp [hbm]))⟩

theorem toy_mod_map (d : List Nat) (hd : ∀ b ∈ d, b < 256) :
    d.map (fun b => b % 256) = d := by
  induction d with
  | nil => rfl
  | cons x xs ih =>
    simp only [List.map_cons, List.cons.injEq]
    exact ⟨Nat.mod_eq_of_lt (hd x (by simp)), ih (fun b h => hd b (by simp [h]))⟩

/-- The key/IV-dependent byte shift of the concrete cipher. -/
def toyShift (k iv : List Nat) : Nat := (k.headD 0 + iv.headD 0) % 256

def toyLib : CryptoLib where
  encryptRaw := fun k iv p => p.map (fun b => (b + toyShift k iv) % 256)
  decryptRaw := fun k iv c => c.map (fun b => (b + 256 - toyShift k iv) % 256)
  pbkdf2 := fun h it pw s =>
    (List.range h.digestSize).map (fun i => (pw.sum * 31 + s.sum * 7 + it + i) % 256)
  qCompressRaw := fun _ d => 202 :: d.map (fun b => b % 256)
  qUncompressRaw := fun y => if y.headD 0 = 202 then y.tail else []
  encryptRaw_length := fun k iv p _ => by simp
  decrypt_encrypt := fun k iv p _ hb =>
    toy_map_roundtrip (toyShift k iv) (Nat.mod_lt _ (by decide)) p hb
  pbkdf2_length := fun h n pw s => by simp
  qCompress_bytes := fun lvl d b hb => by
    rcases List.mem_cons.mp hb with rfl | h
    · decide
    · obtain ⟨x, _, rfl⟩ := List.mem_map.mp h
      exact Nat.mod_lt _ (by decide)
  qUncompress_qCompress := fun d hd => by
    simp [toy_mod_map d hd]

/-- A concrete random stream for witnesses. -/
def rng0 : Nat → Nat := fun i => i

/-- Concrete outer salt: 32 zero bytes. -/
def salt0 : List Nat := List.replicate 32 0

/-- Concrete KGK: 64 bytes of value 1. -/
def KGK1 : List Nat := List.replicate 64 1

/-- Concrete master password used to encode the witness envelopes. -/
def pwRight : List Nat := [3]

/-- A concrete different master password. -/
def pwWrong : List Nat := [9]

/-- Concrete payload: the UTF-8 bytes of "hello". -/
def payload0 : List Nat := [104, 101, 108, 108, 111]

/-- The outer key derived from `pwRight` and `salt0`. -/
def key0 : List Nat := (makeKeyAndIVFromPassword toyLib pwRight salt0).1

/-- The outer IV derived from `pwRight` and `salt0`. -/
def iv0 : List Nat := (makeKeyAndIVFromPassword toyLib pwRight salt0).2

/-- The envelope `encode` produces from `payload0` under `pwRight`
(compress = false). -/
def envC3 : List Nat :=
  AES256EncryptedMasterkeyFormat ::
    (salt0 ++ encEEK toyLib rng0 key0 iv0 KGK1 ++
      encCipher toyLib rng0 KGK1 payload0 false)

/-- The envelope `encode` produces from the one-byte payload `[0]` under
`pwRight` (compress = false); `[0]` is not valid compressed data. -/
def envC7 : List Nat :=
  AES256EncryptedMasterkeyFormat ::
    (salt0 ++ encEEK toyLib rng0 key0 iv0 KGK1 ++
      encCipher toyLib rng0 KGK1 [0] false)

/-- C3: decoding a valid envelope with a wrong master password is rejected
as `IntegrityError` (the padding validation of crypter.cpp lines 149 and
175-192 fails under the mis-derived keys): concretely, the envelope
`envC3` decodes correctly under the password it was encoded with, and
decoding it with the different password `pwWrong` yields `IntegrityError`
rather than a payload. -/
theorem claim_C3_wrong_password_rejection :
    pwWrong ≠ pwRight
    ∧ (decode toyLib pwRight envC3 false true).result = .ok (payload0, KGK1)
    ∧ (decode toyLib pwWrong envC3 false true).result = .error .integrityError := by
  refine ⟨by decide, ?_, ?_⟩ <;> rfl

/-- C7: contrary to the claim, a decompression failure is NOT reported as
`IntegrityError`: crypter.cpp line 151 returns `qUncompress(plain)`
unchecked, and qUncompress signals corrupt input only by returning an
empty array, so `decode` returns an empty payload as a success with
`errCode` still `NoCryptError`.  Concretely: `envC7` wraps the payload
`[0]` (not valid compressed data, as the second conjunct shows); decoding
it with `uncompress = true` returns `ok` with an empty payload. -/
theorem claim_C7_decompression_failure_is_silent :
    (decode toyLib pwRight envC7 true true)
      = ⟨.ok (([] : List Nat), KGK1), some CryptCode.noCryptError⟩
    ∧ (decode toyLib pwRight envC7 false true).result
        = .ok (([0] : List Nat), KGK1) := by
  constructor <;> rfl

/-! ## Witnesses -/

theorem claim_C1_roundtrip_witness :
    salt0.length = SaltSize ∧ KGK1.length = KGKSize ∧
    (decode toyLib pwRight envC3 false false).result = .ok (payload0, KGK1) :=
  ⟨rfl, rfl, claim_C1_roundtrip toyLib rng0 pwRight salt0 KGK1 payload0 false true
    false rfl rfl (by decide) (by decide) envC3 rfl⟩

theorem claim_C2_format_rejection_witness :
    (([2, 5, 7] : List Nat).headD 0 ≠ AES256EncryptedMasterkeyFormat)
    ∧ (decode toyLib [] [2, 5, 7] false true).result = .error .formatError :=
  ⟨by decide, claim_C2_format_rejection toyLib [] [2, 5, 7] false true (by decide)⟩

theorem claim_C4_length_invariants_witness :
    salt0.length = SaltSize ∧ KGK1.length = KGKSize ∧
    (encode toyLib rng0 key0 iv0 salt0 KGK1 payload0 false true).result
      = .ok (AES256EncryptedMasterkeyFormat ::
          (salt0 ++ encEEK toyLib rng0 key0 iv0 KGK1 ++
            encCipher toyLib rng0 KGK1 payload0 false)) :=
  ⟨rfl, rfl, (claim_C4_length_invariants toyLib rng0 key0 iv0 salt0 KGK1 payload0
    false true rfl rfl).1⟩

theorem claim_C6_inner_length_check_witness :
    (([1] : List Nat).headD 0 = AES256EncryptedMasterkeyFormat)
    ∧ (decodeBaKGK toyLib [] [1]).length ≠ EEKSize
    ∧ (decode toyLib [] [1] false true).result = .error .integrityError :=
  ⟨rfl, by decide, claim_C6_inner_length_check toyLib [] [1] false true rfl (by decide)⟩

theorem claim_C8_kgk_contract_witness :
    (([] : List Nat).length ≠ KGKSize)
    ∧ encode toyLib rng0 key0 iv0 salt0 [] payload0 false true
        = ⟨.error .contractViolation, none⟩ :=
  ⟨by decide, (claim_C8_kgk_contract toyLib toyLib rng0 rng0 key0 iv0 salt0 []
    payload0 false true (by decide)).1⟩

theorem claim_C9_errcode_channel_witness :
    (decode toyLib pwRight envC3 false true).errCode = some CryptCode.noCryptError
    ∧ (encode toyLib rng0 key0 iv0 salt0 KGK1 payload0 false true).errCode
        = some CryptCode.noCryptError :=
  ⟨(claim_C9_errcode_channel toyLib rng0 pwRight envC3 key0 iv0 salt0 KGK1
      payload0 false false).1,
   (claim_C9_errcode_channel toyLib rng0 pwRight envC3 key0 iv0 salt0 KGK1
      payload0 false false).2
     (AES256EncryptedMasterkeyFormat ::
       (salt0 ++ encEEK toyLib rng0 key0 iv0 KGK1 ++
         encCipher toyLib rng0 KGK1 payload0 false)) rfl⟩
